import Mathlib

/-!
# Verification of the AppGallery fetcher core

A shallow embedding of the metadata-fetch core of the `appgallery-fetcher`
repository (`appgallery_service.py`: `get_interface_code`, `build_headers`,
`get_app_info`), together with theorems settling the specification's claims.

JSON values parsed by `resp.json()` are modelled by `JVal` (numbers as `Int`;
no claim depends on float arithmetic).  Python `None` and JSON `null` are the
same object after `json.loads`, so both are `JVal.null`.  Exceptions are
modelled by `Except PyErr`; the network is modelled by an environment record
carrying the outcome of each of the two HTTP calls, and a trace records
whether the detail-lookup GET was issued and with which header.
-/

set_option autoImplicit false

namespace AppGallery

/-- A parsed JSON value (`resp.json()` result). Objects keep insertion order,
as Python dicts do; keys are unique in anything `json.loads` produces. -/
inductive JVal where
  | null
  | bool (b : Bool)
  | num (n : Int)
  | str (s : String)
  | arr (elems : List JVal)
  | obj (fields : List (String × JVal))

/-- Exception kinds that can escape the embedded code paths. -/
inductive PyErr where
  /-- `requests` connection-level failure (endpoint unreachable). -/
  | connectionError
  /-- `resp.raise_for_status()` on a non-success HTTP status. -/
  | httpStatusError (code : Nat)
  /-- `resp.json()` on a body that is not valid JSON. -/
  | jsonDecodeError
  /-- `RuntimeError(msg)`. -/
  | runtimeError (msg : String)
  /-- `ValueError(msg)`. -/
  | valueError (msg : String)
  /-- `AttributeError` (e.g. `.get` on a non-dict). -/
  | attributeError
  /-- `TypeError` (e.g. iterating a non-iterable, `in` on a number). -/
  | typeError
  /-- `KeyError` (subscripting a dict with a missing key). -/
  | keyError
deriving DecidableEq, Repr

/-- Outcome of one HTTP request: unreachable, or a status code together with
the parsed body (`none` when the body is not valid JSON). -/
inductive HttpOutcome where
  | unreachable
  | status (code : Nat) (body : Option JVal)

/-- First binding of a key in an association list (Python dict lookup). -/
def lookupField : List (String × JVal) → String → Option JVal
  | [], _ => none
  | (k, v) :: fs, key => if k = key then some v else lookupField fs key

/-- Python `d.get(key)`: `None` when missing, `AttributeError` on a
non-dict receiver. -/
def pyGet (v : JVal) (key : String) : Except PyErr JVal :=
  match v with
  | .obj fs => .ok ((lookupField fs key).getD .null)
  | _ => .error .attributeError

/-- Python `d.get(key, default)`. -/
def pyGetD (v : JVal) (key : String) (dflt : JVal) : Except PyErr JVal :=
  match v with
  | .obj fs => .ok ((lookupField fs key).getD dflt)
  | _ => .error .attributeError

/-- Python `d[key]` for a string key: dict lookup, `KeyError` when absent,
`TypeError` on list/str/number receivers. -/
def pySubscript (v : JVal) (key : String) : Except PyErr JVal :=
  match v with
  | .obj fs =>
    match lookupField fs key with
    | some x => .ok x
    | none => .error .keyError
  | _ => .error .typeError

/-- Python `==` against a string literal / `str` variable. Only `str` values
compare equal to a `str`; every other type (including `None`) gives `False`. -/
def pyEqStr (v : JVal) (s : String) : Bool :=
  match v with
  | .str t => t = s
  | _ => false

/-- Python `==` against an `int` literal. `True == 1` and `False == 0` hold
in Python, so booleans participate. -/
def pyEqNum (v : JVal) (n : Int) : Bool :=
  match v with
  | .num m => m = n
  | .bool b => (if b then (1 : Int) else 0) = n
  | _ => false

/-- Python truthiness of a JSON value. -/
def pyTruthy : JVal → Bool
  | .null => false
  | .bool b => b
  | .num n => n != 0
  | .str s => !s.isEmpty
  | .arr xs => !xs.isEmpty
  | .obj fs => !fs.isEmpty

/-- Truthiness of an optional value (`None` is falsy). -/
def pyTruthyOpt : Option JVal → Bool
  | none => false
  | some v => pyTruthy v

/-- Python substring test `needle in haystack` for strings, via `splitOn`:
the needle occurs iff splitting on it yields more than one piece. -/
def strContains (haystack needle : String) : Bool :=
  (haystack.splitOn needle).length ≥ 2

/-- Python `key in v` for a string key: dict key membership, list membership
(via `==`), substring test on strings, `TypeError` otherwise. -/
def pyContains (v : JVal) (key : String) : Except PyErr Bool :=
  match v with
  | .obj fs => .ok (fs.any (fun p => p.1 = key))
  | .arr xs => .ok (xs.any (fun x => pyEqStr x key))
  | .str s => .ok (strContains s key)
  | _ => .error .typeError

/-- Python `for x in v`: lists iterate their elements, strings their
characters, dicts their keys; other values raise `TypeError`. -/
def pyIter (v : JVal) : Except PyErr (List JVal) :=
  match v with
  | .arr xs => .ok xs
  | .str s => .ok (s.data.map (fun c => .str (String.mk [c])))
  | .obj fs => .ok (fs.map (fun p => .str p.1))
  | _ => .error .typeError

/-- Python dict assignment `d[key] = v`: replace in place when the key
exists (keeping its position), otherwise append (insertion order). -/
def dictSet (fs : List (String × JVal)) (key : String) (v : JVal) :
    List (String × JVal) :=
  if fs.any (fun p => p.1 = key) then
    fs.map (fun p => if p.1 = key then (key, v) else p)
  else
    fs ++ [(key, v)]

/-- `d[key] = v` on a `JVal`: `TypeError` unless the receiver is a dict. -/
def jvalSet (v : JVal) (key : String) (x : JVal) : Except PyErr JVal :=
  match v with
  | .obj fs => .ok (.obj (dictSet fs key x))
  | _ => .error .typeError

mutual

/-- Python `str()` / `repr()` of a parsed JSON value (f-string rendering).
String escaping inside `repr` is not modelled (no claim exercises it). -/
def pyRepr : JVal → String
  | .null => "None"
  | .bool b => if b then "True" else "False"
  | .num n => toString n
  | .str s => "\x27" ++ s ++ "\x27"
  | .arr xs => "[" ++ pyReprList xs ++ "]"
  | .obj fs => "\x7b" ++ pyReprFields fs ++ "\x7d"

/-- Comma-separated `repr`s of the elements of a list. -/
def pyReprList : List JVal → String
  | [] => ""
  | [x] => pyRepr x
  | x :: y :: xs => pyRepr x ++ ", " ++ pyReprList (y :: xs)

/-- Comma-separated `'key': repr(value)` pairs of a dict. -/
def pyReprFields : List (String × JVal) → String
  | [] => ""
  | [(k, v)] => "\x27" ++ k ++ "\x27: " ++ pyRepr v
  | (k, v) :: q :: fs =>
    "\x27" ++ k ++ "\x27: " ++ pyRepr v ++ ", " ++ pyReprFields (q :: fs)

end

/-- Python `str(v)`: identity on strings, `repr`-style elsewhere. -/
def pyStr (v : JVal) : String :=
  match v with
  | .str s => s
  | _ => pyRepr v

/-- `str(time.time()).replace('.', '')`: removing every `'.'` character
from the decimal rendering of the clock value. -/
def removeDots (s : String) : String :=
  String.mk (s.data.filter (fun c => c ≠ '.'))

/-- `requests` raises from `raise_for_status()` exactly for 4xx and 5xx. -/
def isErrorStatus (code : Nat) : Bool :=
  400 ≤ code && code < 600

/-- The network environment of one `get_app_info` call: the outcome the
interface-code POST would produce, the value of `str(time.time())` at the
moment `build_headers` reads the clock, and the outcome the detail-lookup
GET would produce if issued. -/
structure Env where
  interfaceCall : HttpOutcome
  timeStr : String
  detailCall : HttpOutcome

/-- The detail-lookup GET request, as observed on the wire. -/
structure DetailRequest where
  url : String
  interfaceCode : String

/-- Observable trace of one `get_app_info` call: `none` when the
detail-lookup GET was never issued. -/
structure Trace where
  detailRequest : Option DetailRequest

/-- `INTERFACE_URL` from `appgallery_service.py`. -/
def INTERFACE_URL : String :=
  "https://web-drru.hispace.dbankcloud.ru/webedge/getInterfaceCode"

/-- `APP_INFO_URL_TEMPLATE.format(app_id=app_id)`. -/
def appInfoUrl (app_id : String) : String :=
  "https://web-drru.hispace.dbankcloud.ru/uowap/index?method=internal.getTabDetail&uri=app%7C" ++ app_id

/-- `get_interface_code` from `appgallery_service.py`:

    resp = requests.post(INTERFACE_URL, timeout=10)
    resp.raise_for_status()
    return resp.json()

wrapped in `try/except Exception`, so a connection failure, a non-success
status and an unparseable body all collapse into
`RuntimeError("Cannot get interface code.")`. -/
def get_interface_code (outcome : HttpOutcome) : Except PyErr JVal :=
  let attempt : Except PyErr JVal :=
    match outcome with
    | .unreachable => .error .connectionError
    | .status code body =>
      if isErrorStatus code then .error (.httpStatusError code)
      else
        match body with
        | none => .error .jsonDecodeError
        | some v => .ok v
  match attempt with
  | .ok v => .ok v
  | .error _ => .error (.runtimeError "Cannot get interface code.")

/-- `build_headers` from `appgallery_service.py`:

    code = get_interface_code()
    timestamp = str(time.time()).replace('.', '')
    return {'Interface-Code': f"{code}_{timestamp}"}

The returned dict has the single key `'Interface-Code'`; we return its
value. -/
def build_headers (outcome : HttpOutcome) (timeStr : String) :
    Except PyErr String := do
  let code ← get_interface_code outcome
  let timestamp := removeDots timeStr
  pure (pyStr code ++ "_" ++ timestamp)

/-- State threaded through the layout scan of `get_app_info`:
`app_item = None` / `developer_name = None` initially. -/
structure ScanState where
  app_item : Option JVal
  developer_name : JVal

/-- The inner loop `for dev in item["list"]`:

    if dev.get("name") == "Developer":
        developer_name = dev.get("text")
-/
def scanDevs (developer_name : JVal) : List JVal → Except PyErr JVal
  | [] => .ok developer_name
  | dev :: rest => do
    let n ← pyGet dev "name"
    let developer_name' ←
      if pyEqStr n "Developer" then pyGet dev "text" else pure developer_name
    scanDevs developer_name' rest

/-- The first statement of the loop body over data items:

    if layout_id == 49 and not app_item and item.get("appid") == app_id:
        app_item = item

`and` short-circuits, so `item.get("appid")` is only evaluated under
`layout_id == 49 and not app_item`. -/
def scanItemApp (app_id : String) (layout_id : JVal) (st : ScanState)
    (item : JVal) : Except PyErr ScanState :=
  if pyEqNum layout_id 49 && !pyTruthyOpt st.app_item then do
    let a ← pyGet item "appid"
    if pyEqStr a app_id then pure { st with app_item := some item }
    else pure st
  else pure st

/-- The second statement of the loop body over data items:

    if layout_id == 59 and "list" in item:
        for dev in item["list"]:
            if dev.get("name") == "Developer":
                developer_name = dev.get("text")

`"list" in item` is only evaluated under `layout_id == 59`. -/
def scanItemDev (layout_id : JVal) (st : ScanState) (item : JVal) :
    Except PyErr ScanState :=
  if pyEqNum layout_id 59 then do
    let hasList ← pyContains item "list"
    if hasList then do
      let lst ← pySubscript item "list"
      let devs ← pyIter lst
      let d ← scanDevs st.developer_name devs
      pure { st with developer_name := d }
    else pure st
  else pure st

/-- The body of `for item in element.get("dataList", [])` for one item:
the two `if` statements in sequence. -/
def scanItem (app_id : String) (layout_id : JVal) (st : ScanState)
    (item : JVal) : Except PyErr ScanState := do
  let st ← scanItemApp app_id layout_id st item
  scanItemDev layout_id st item

/-- `for item in element.get("dataList", [])`, iterated. -/
def scanItems (app_id : String) (layout_id : JVal) :
    ScanState → List JVal → Except PyErr ScanState
  | st, [] => .ok st
  | st, item :: rest => do
    let st' ← scanItem app_id layout_id st item
    scanItems app_id layout_id st' rest

/-- The body of `for element in layout_data` for one element:

    layout_id = element.get("layoutId")
    for item in element.get("dataList", []): ...
-/
def scanElement (app_id : String) (st : ScanState) (element : JVal) :
    Except PyErr ScanState := do
  let layout_id ← pyGet element "layoutId"
  let dl ← pyGetD element "dataList" (.arr [])
  let items ← pyIter dl
  scanItems app_id layout_id st items

/-- `for element in layout_data`, iterated. -/
def scanElements (app_id : String) :
    ScanState → List JVal → Except PyErr ScanState
  | st, [] => .ok st
  | st, element :: rest => do
    let st' ← scanElement app_id st element
    scanElements app_id st' rest

/-- The message of the `ValueError` raised when no app item was accepted. -/
def notFoundMsg (app_id : String) : String :=
  "App ID " ++ app_id ++ " not found in response."

/-- The part of `get_app_info` that runs on the parsed detail response
`data`:

    layout_data = data.get('layoutData', [])
    app_item = None
    developer_name = None
    for element in layout_data: ...
    if app_item:
        app_item["integration_type"] = "appgallery"
        if developer_name:
            app_item["developer"] = developer_name
        return app_item
    raise ValueError(f"App ID {app_id} not found in response.")
-/
def extractFromData (app_id : String) (data : JVal) : Except PyErr JVal := do
  let layout_data ← pyGetD data "layoutData" (.arr [])
  let elements ← pyIter layout_data
  let st ← scanElements app_id ⟨none, .null⟩ elements
  match st.app_item with
  | some item =>
    if pyTruthy item then do
      let item ← jvalSet item "integration_type" (.str "appgallery")
      if pyTruthy st.developer_name then
        jvalSet item "developer" st.developer_name
      else
        pure item
    else .error (.valueError (notFoundMsg app_id))
  | none => .error (.valueError (notFoundMsg app_id))

/-- `get_app_info` from `appgallery_service.py`.  `build_headers()` runs
before the `try:` block, so its exception propagates directly and the GET is
never issued; inside the `try:` block, `except Exception` logs and
re-raises (`raise`), so every error propagates unchanged.  The second
component records whether the detail GET was issued, with which URL and
which `Interface-Code` header value. -/
def get_app_info (app_id : String) (env : Env) :
    Except PyErr JVal × Trace :=
  match build_headers env.interfaceCall env.timeStr with
  | .error e => (.error e, ⟨none⟩)
  | .ok header =>
    let trace : Trace := ⟨some ⟨appInfoUrl app_id, header⟩⟩
    match env.detailCall with
    | .unreachable => (.error .connectionError, trace)
    | .status code body =>
      if isErrorStatus code then (.error (.httpStatusError code), trace)
      else
        match body with
        | none => (.error .jsonDecodeError, trace)
        | some data => (extractFromData app_id data, trace)

/-! ## Specification-level description of the scan

Pure, single-purpose functions describing what the interleaved scan of
`get_app_info` computes on well-formed responses: the first matching
layout-49 item, and the `text` of the last layout-59 `"Developer"` entry. -/

/-- Is the value a JSON object (a Python dict)? -/
def isObj : JVal → Bool
  | .obj _ => true
  | _ => false

/-- Total field access: the field's value on a dict that has it, `null`
(Python `None`) otherwise. Agrees with `pyGet` on dicts. -/
def jGet (v : JVal) (key : String) : JVal :=
  match v with
  | .obj fs => (lookupField fs key).getD .null
  | _ => .null

/-- Field lookup on the result record (an object), as an `Option`. -/
def jLookup (v : JVal) (key : String) : Option JVal :=
  match v with
  | .obj fs => lookupField fs key
  | _ => none

/-- Does the layout element carry `layoutId == n` (Python `==`)? -/
def isLayout (n : Int) (e : JVal) : Bool :=
  pyEqNum (jGet e "layoutId") n

/-- `element.get("dataList", [])` on well-formed elements. -/
def itemsOf (e : JVal) : List JVal :=
  match jGet e "dataList" with
  | .arr items => items
  | _ => []

/-- `data.get('layoutData', [])` on well-formed responses. -/
def elementsOf (data : JVal) : List JVal :=
  match jGet data "layoutData" with
  | .arr es => es
  | _ => []

/-- `item.get("appid") == app_id` (the layout-49 acceptance test). -/
def itemMatches (app_id : String) (item : JVal) : Bool :=
  pyEqStr (jGet item "appid") app_id

/-- First matching data item of one element, `none` unless `layoutId == 49`. -/
def firstMatchInElement (app_id : String) (e : JVal) : Option JVal :=
  if isLayout 49 e then (itemsOf e).find? (itemMatches app_id) else none

/-- The candidate record the scan accepts: the first matching item of the
first layout-49 element that has one. -/
def firstMatch (app_id : String) : List JVal → Option JVal
  | [] => none
  | e :: es =>
    match firstMatchInElement app_id e with
    | some item => some item
    | none => firstMatch app_id es

/-- `dev.get("name") == "Developer"`. -/
def isDevEntry (dev : JVal) : Bool :=
  pyEqStr (jGet dev "name") "Developer"

/-- The nested `list` entries of one data item (empty when the `list` key
is absent). -/
def devEntriesOfItem (item : JVal) : List JVal :=
  match item with
  | .obj fs =>
    match lookupField fs "list" with
    | some (.arr ds) => ds
    | _ => []
  | _ => []

/-- The nested `list` entries contributed by one element, `[]` unless
`layoutId == 59`. -/
def devEntriesOfElement (e : JVal) : List JVal :=
  if isLayout 59 e then (itemsOf e).flatMap devEntriesOfItem else []

/-- All nested `list` entries scanned for a developer name, in scan order. -/
def devEntries (es : List JVal) : List JVal :=
  es.flatMap devEntriesOfElement

/-- The developer-name accumulator: every `"Developer"`-named entry
overwrites it with its `text` (possibly `None`); others leave it alone. -/
def devFold (acc : JVal) : List JVal → JVal
  | [] => acc
  | d :: ds => devFold (if isDevEntry d then jGet d "text" else acc) ds

/-- The developer name the whole scan ends with. -/
def lastDeveloperText (es : List JVal) : JVal :=
  devFold .null (devEntries es)

/-- Pure version of `dictSet` on a record known to be an object. -/
def setField (item : JVal) (key : String) (v : JVal) : JVal :=
  match item with
  | .obj fs => .obj (dictSet fs key v)
  | _ => item

/-- The mutation performed on an accepted candidate:
`integration_type = "appgallery"` always, then `developer` when the
scanned developer name is truthy. -/
def finalizeRecord (item developer_name : JVal) : JVal :=
  let tagged := setField item "integration_type" (.str "appgallery")
  if pyTruthy developer_name then setField tagged "developer" developer_name
  else tagged

/-! ## Well-formed responses

The spec's "well-formed response": the shape on which the defensive scan
reads every field it touches without a type error — `layoutData` (when
present) a list of dicts, each `dataList` (when present) a list of dicts,
each nested `list` (when present) a list of dicts. -/

/-- A `list` field must be a list of dicts to be iterated for developers. -/
def wfDevList (v : JVal) : Bool :=
  match v with
  | .arr ds => ds.all isObj
  | _ => false

/-- A data item: a dict whose `list` field, when present, is well-formed. -/
def wfItem (item : JVal) : Bool :=
  match item with
  | .obj fs =>
    match lookupField fs "list" with
    | some l => wfDevList l
    | none => true
  | _ => false

/-- A layout element: a dict whose `dataList`, when present, is a list of
well-formed items. -/
def wfElement (e : JVal) : Bool :=
  match e with
  | .obj fs =>
    match lookupField fs "dataList" with
    | some (.arr items) => items.all wfItem
    | some _ => false
    | none => true
  | _ => false

/-- A detail response: a dict whose `layoutData`, when present, is a list
of well-formed elements. -/
def wfLayoutData (data : JVal) : Bool :=
  match data with
  | .obj fs =>
    match lookupField fs "layoutData" with
    | some (.arr es) => es.all wfElement
    | some _ => false
    | none => true
  | _ => false

/-! ## Reduction lemmas -/

theorem ok_bind {α β : Type} (a : α) (f : α → Except PyErr β) :
    (Except.ok a >>= f) = f a := rfl

theorem error_bind {α β : Type} (e : PyErr) (f : α → Except PyErr β) :
    ((Except.error e : Except PyErr α) >>= f) = Except.error e := rfl

theorem pyGet_obj (v : JVal) (key : String) (h : isObj v = true) :
    pyGet v key = .ok (jGet v key) := by
  cases v <;> simp_all [isObj, pyGet, jGet]

theorem itemMatches_truthy (app_id : String) (item : JVal)
    (h : itemMatches app_id item = true) : pyTruthy item = true := by
  cases item with
  | obj fs =>
    cases fs with
    | nil => simp [itemMatches, jGet, lookupField, pyEqStr] at h
    | cons p fs => simp [pyTruthy]
  | null => simp [itemMatches, jGet, pyEqStr] at h
  | bool b => simp [itemMatches, jGet, pyEqStr] at h
  | num n => simp [itemMatches, jGet, pyEqStr] at h
  | str s => simp [itemMatches, jGet, pyEqStr] at h
  | arr xs => simp [itemMatches, jGet, pyEqStr] at h

theorem itemMatches_isObj (app_id : String) (item : JVal)
    (h : itemMatches app_id item = true) : isObj item = true := by
  cases item <;> simp_all [itemMatches, jGet, pyEqStr, isObj]

theorem firstMatch_matches (app_id : String) (es : List JVal) (item : JVal)
    (h : firstMatch app_id es = some item) :
    itemMatches app_id item = true := by
  induction es with
  | nil => simp [firstMatch] at h
  | cons e es ih =>
    simp only [firstMatch] at h
    cases hfe : firstMatchInElement app_id e with
    | some it =>
      rw [hfe] at h
      cases h
      exact List.find?_some (by
        simpa [firstMatchInElement] using
          (by
            unfold firstMatchInElement at hfe
            by_cases hl : isLayout 49 e
            · simpa [hl] using hfe
            · simp [hl] at hfe))
    | none =>
      rw [hfe] at h
      exact ih h

/-- `devFold` over an append: the second half continues from the first. -/
theorem devFold_append (xs ys : List JVal) (acc : JVal) :
    devFold acc (xs ++ ys) = devFold (devFold acc xs) ys := by
  induction xs generalizing acc with
  | nil => simp [devFold]
  | cons x xs ih => simp [devFold, ih]

/-- `devFold` is "last `Developer` entry wins": it returns the `text` of
the last qualifying entry, or the accumulator if none qualifies. -/
theorem devFold_eq_getLast (ds : List JVal) (acc : JVal) :
    devFold acc ds =
      match (ds.filter isDevEntry).getLast? with
      | some d => jGet d "text"
      | none => acc := by
  induction ds generalizing acc with
  | nil => simp [devFold]
  | cons d ds ih =>
    simp only [devFold, List.filter_cons]
    by_cases h : isDevEntry d
    · simp only [h, if_true, ih]
      cases hf : (ds.filter isDevEntry).getLast? with
      | some d' => simp [List.getLast?_cons, hf]
      | none =>
        have : ds.filter isDevEntry = [] := by
          cases hl : ds.filter isDevEntry with
          | nil => rfl
          | cons a l => rw [hl] at hf; simp [List.getLast?_concat] at hf
        simp [this]
    · simp [h, ih]

theorem pure_except {α : Type} (a : α) : (pure a : Except PyErr α) = .ok a := rfl

theorem lookupField_of_any (fs : List (String × JVal)) (key : String)
    (h : fs.any (fun p => p.1 = key) = true) :
    ∃ v, lookupField fs key = some v := by
  induction fs with
  | nil => simp at h
  | cons p fs ih =>
    obtain ⟨k, v⟩ := p
    by_cases hp : k = key
    · exact ⟨v, by simp [lookupField, hp]⟩
    · simp only [List.any_cons, Bool.or_eq_true, decide_eq_true_eq] at h
      rcases h with h | h
      · exact absurd h hp
      · obtain ⟨w, hw⟩ := ih (by simpa using h)
        exact ⟨w, by simp [lookupField, hp, hw]⟩

theorem lookupField_of_not_any (fs : List (String × JVal)) (key : String)
    (h : fs.any (fun p => p.1 = key) = false) :
    lookupField fs key = none := by
  induction fs with
  | nil => rfl
  | cons p fs ih =>
    obtain ⟨k, v⟩ := p
    simp only [List.any_cons, Bool.or_eq_false_iff, decide_eq_false_iff_not] at h
    simp [lookupField, h.1, ih (by simpa using h.2)]

/-- Invariant of the scan: the accepted candidate, when present, is truthy
(it always is: an accepted item has a matching `appid` field, so it is a
non-empty dict).  This is what makes the Python gate `not app_item`
equivalent to `app_item is None` here. -/
def appInv : Option JVal → Prop
  | none => True
  | some x => pyTruthy x = true

theorem pyTruthyOpt_of_inv (a : Option JVal) (h : appInv a) :
    pyTruthyOpt a = !a.isNone := by
  cases a with
  | none => rfl
  | some x => simpa [pyTruthyOpt] using h

/-- What one item does to the candidate slot. -/
def stepApp (app_id : String) (lid : JVal) (a : Option JVal) (item : JVal) :
    Option JVal :=
  if pyEqNum lid 49 && a.isNone && itemMatches app_id item then some item
  else a

/-- What one item does to the developer-name slot. -/
def stepDev (lid : JVal) (d : JVal) (item : JVal) : JVal :=
  if pyEqNum lid 59 then devFold d (devEntriesOfItem item) else d

theorem stepApp_inv (app_id : String) (lid : JVal) (a : Option JVal)
    (item : JVal) (h : appInv a) : appInv (stepApp app_id lid a item) := by
  unfold stepApp
  by_cases hc : pyEqNum lid 49 && a.isNone && itemMatches app_id item
  · simp only [hc, if_true]
    simp only [Bool.and_eq_true] at hc
    exact itemMatches_truthy app_id item hc.2
  · simpa [hc] using h

theorem scanDevs_eq (ds : List JVal) (acc : JVal) (h : ds.all isObj = true) :
    scanDevs acc ds = .ok (devFold acc ds) := by
  induction ds generalizing acc with
  | nil => rfl
  | cons d ds ih =>
    simp only [List.all_cons, Bool.and_eq_true] at h
    simp only [scanDevs, devFold, pyGet_obj d "name" h.1, ok_bind, isDevEntry]
    by_cases hd : pyEqStr (jGet d "name") "Developer"
    · simp only [hd, if_true, pyGet_obj d "text" h.1, ok_bind]
      exact ih _ h.2
    · simp only [hd, if_false, Bool.false_eq_true, pure_except, ok_bind]
      exact ih _ h.2

theorem scanItemApp_eq (app_id : String) (lid : JVal) (st : ScanState)
    (item : JVal) (hobj : isObj item = true) (hinv : appInv st.app_item) :
    scanItemApp app_id lid st item =
      .ok { st with app_item := stepApp app_id lid st.app_item item } := by
  unfold scanItemApp stepApp
  rw [pyTruthyOpt_of_inv st.app_item hinv, Bool.not_not]
  cases h49 : pyEqNum lid 49 && st.app_item.isNone with
  | false => simp [h49, pure_except]
  | true =>
    rw [pyGet_obj item "appid" hobj]
    cases hm : pyEqStr (jGet item "appid") app_id with
    | true => simp [h49, hm, itemMatches, ok_bind, pure_except]
    | false => simp [h49, hm, itemMatches, ok_bind, pure_except]

theorem scanItemDev_eq (lid : JVal) (st : ScanState) (item : JVal)
    (hwf : wfItem item = true) :
    scanItemDev lid st item =
      .ok { st with developer_name := stepDev lid st.developer_name item } := by
  obtain ⟨fs, rfl⟩ : ∃ fs, item = .obj fs := by
    cases item <;> simp_all [wfItem]
  unfold scanItemDev stepDev
  cases h59 : pyEqNum lid 59 with
  | false => simp [pure_except]
  | true =>
    rw [if_pos rfl, if_pos rfl,
      show pyContains (JVal.obj fs) "list" = .ok (fs.any (fun p => p.1 = "list"))
        from rfl, ok_bind]
    cases hl : fs.any (fun p => p.1 = "list") with
    | false =>
      have hnone := lookupField_of_not_any fs "list" hl
      have hde : devEntriesOfItem (JVal.obj fs) = [] := by
        simp [devEntriesOfItem, hnone]
      simp [hde, devFold, pure_except]
    | true =>
      obtain ⟨l, hlk⟩ := lookupField_of_any fs "list" hl
      have hsub : pySubscript (JVal.obj fs) "list" = .ok l := by
        simp [pySubscript, hlk]
      rw [if_pos rfl, hsub, ok_bind]
      have hwl : wfDevList l = true := by
        simpa [wfItem, hlk] using hwf
      obtain ⟨ds, rfl⟩ : ∃ ds, l = .arr ds := by
        cases l <;> simp_all [wfDevList]
      have hds : ds.all isObj = true := by simpa [wfDevList] using hwl
      rw [show pyIter (JVal.arr ds) = .ok ds from rfl, ok_bind,
        scanDevs_eq ds _ hds, ok_bind]
      have hde : devEntriesOfItem (JVal.obj fs) = ds := by
        simp [devEntriesOfItem, hlk]
      rw [hde]
      rfl

theorem scanItem_eq (app_id : String) (lid : JVal) (st : ScanState)
    (item : JVal) (hwf : wfItem item = true) (hinv : appInv st.app_item) :
    scanItem app_id lid st item =
      .ok ⟨stepApp app_id lid st.app_item item,
           stepDev lid st.developer_name item⟩ := by
  have hobj : isObj item = true := by
    cases item <;> simp_all [wfItem, isObj]
  unfold scanItem
  rw [scanItemApp_eq app_id lid st item hobj hinv, ok_bind,
    scanItemDev_eq lid _ item hwf]

theorem scanItems_eq (app_id : String) (lid : JVal) (items : List JVal)
    (st : ScanState) (hwf : items.all wfItem = true)
    (hinv : appInv st.app_item) :
    scanItems app_id lid st items =
      .ok ⟨items.foldl (stepApp app_id lid) st.app_item,
           items.foldl (stepDev lid) st.developer_name⟩ := by
  induction items generalizing st with
  | nil => cases st; rfl
  | cons item items ih =>
    simp only [List.all_cons, Bool.and_eq_true] at hwf
    simp only [scanItems]
    rw [scanItem_eq app_id lid st item hwf.1 hinv, ok_bind,
      ih ⟨stepApp app_id lid st.app_item item,
          stepDev lid st.developer_name item⟩
        hwf.2 (stepApp_inv app_id lid st.app_item item hinv)]
    rfl

theorem foldl_stepApp_some (app_id : String) (lid : JVal) (items : List JVal)
    (x : JVal) : items.foldl (stepApp app_id lid) (some x) = some x := by
  induction items with
  | nil => rfl
  | cons item items ih => simpa [stepApp] using ih

theorem foldl_stepApp_inv (app_id : String) (lid : JVal) (items : List JVal)
    (a : Option JVal) (h : appInv a) :
    appInv (items.foldl (stepApp app_id lid) a) := by
  induction items generalizing a with
  | nil => exact h
  | cons item items ih =>
    exact ih _ (stepApp_inv app_id lid a item h)

theorem foldl_stepApp_none (app_id : String) (lid : JVal)
    (items : List JVal) :
    items.foldl (stepApp app_id lid) none =
      if pyEqNum lid 49 then items.find? (itemMatches app_id) else none := by
  induction items with
  | nil => simp
  | cons item items ih =>
    simp only [List.foldl_cons, stepApp, Option.isNone_none, Bool.and_true]
    by_cases h49 : pyEqNum lid 49 = true
    · simp only [h49, Bool.true_and, if_true]
      cases hm : itemMatches app_id item with
      | true =>
        simp [hm, List.find?_cons_of_pos _ hm, foldl_stepApp_some]
      | false =>
        have hne : ¬itemMatches app_id item = true := by simp [hm]
        simp [hm, List.find?_cons_of_neg _ hne, ih, h49]
    · simp only [Bool.not_eq_true] at h49
      simp [h49, ih]

theorem foldl_stepDev (lid : JVal) (items : List JVal) (d : JVal) :
    items.foldl (stepDev lid) d =
      if pyEqNum lid 59 then devFold d (items.flatMap devEntriesOfItem)
      else d := by
  induction items generalizing d with
  | nil => simp [devFold]
  | cons item items ih =>
    simp only [List.foldl_cons, stepDev]
    by_cases h59 : pyEqNum lid 59 = true
    · simp [h59, ih, List.flatMap_cons, devFold_append]
    · simp only [Bool.not_eq_true] at h59
      simp [h59, ih]

theorem scanElement_eq (app_id : String) (st : ScanState) (e : JVal)
    (hwf : wfElement e = true) (hinv : appInv st.app_item) :
    scanElement app_id st e =
      .ok ⟨(itemsOf e).foldl (stepApp app_id (jGet e "layoutId")) st.app_item,
           (itemsOf e).foldl (stepDev (jGet e "layoutId"))
             st.developer_name⟩ := by
  obtain ⟨fs, rfl⟩ : ∃ fs, e = .obj fs := by
    cases e <;> simp_all [wfElement]
  unfold scanElement
  rw [pyGet_obj (JVal.obj fs) "layoutId" rfl, ok_bind]
  cases hdl : lookupField fs "dataList" with
  | none =>
    have hio : itemsOf (JVal.obj fs) = [] := by simp [itemsOf, jGet, hdl]
    rw [show pyGetD (JVal.obj fs) "dataList" (.arr []) = .ok (.arr []) by
        simp [pyGetD, hdl],
      ok_bind, show pyIter (JVal.arr []) = .ok [] from rfl, ok_bind, hio]
    cases st; rfl
  | some dl =>
    have hex : ∃ items, dl = .arr items ∧ items.all wfItem = true := by
      cases dl <;> simp_all [wfElement]
    obtain ⟨items, rfl, hits⟩ := hex
    have hio : itemsOf (JVal.obj fs) = items := by simp [itemsOf, jGet, hdl]
    rw [show pyGetD (JVal.obj fs) "dataList" (.arr []) = .ok (.arr items) by
        simp [pyGetD, hdl],
      ok_bind, show pyIter (JVal.arr items) = .ok items from rfl, ok_bind,
      scanItems_eq app_id _ items st hits hinv, hio]

theorem scanElements_eq (app_id : String) (es : List JVal) (st : ScanState)
    (hwf : es.all wfElement = true) (hinv : appInv st.app_item) :
    scanElements app_id st es =
      .ok ⟨(match st.app_item with
            | some x => some x
            | none => firstMatch app_id es),
           devFold st.developer_name (devEntries es)⟩ := by
  induction es generalizing st with
  | nil =>
    obtain ⟨a, d⟩ := st
    cases a <;> simp [scanElements, devEntries, devFold, firstMatch]
  | cons e es ih =>
    simp only [List.all_cons, Bool.and_eq_true] at hwf
    simp only [scanElements]
    rw [scanElement_eq app_id st e hwf.1 hinv, ok_bind,
      ih ⟨_, _⟩ hwf.2
        (foldl_stepApp_inv app_id (jGet e "layoutId") (itemsOf e)
          st.app_item hinv)]
    have happ :
        (match (itemsOf e).foldl (stepApp app_id (jGet e "layoutId"))
            st.app_item with
         | some x => some x
         | none => firstMatch app_id es)
        = (match st.app_item with
           | some x => some x
           | none => firstMatch app_id (e :: es)) := by
      cases ha : st.app_item with
      | some x => rw [foldl_stepApp_some]
      | none =>
        rw [foldl_stepApp_none]
        simp only [firstMatch, firstMatchInElement, isLayout]
    have hdev :
        devFold ((itemsOf e).foldl (stepDev (jGet e "layoutId"))
            st.developer_name) (devEntries es)
        = devFold st.developer_name (devEntries (e :: es)) := by
      rw [foldl_stepDev]
      simp only [devEntries, List.flatMap_cons, devFold_append,
        devEntriesOfElement, isLayout]
      by_cases h59 : pyEqNum (jGet e "layoutId") 59 = true
      · simp [h59]
      · simp only [Bool.not_eq_true] at h59
        simp [h59, devFold]
    rw [happ, hdev]

/-- What the response-scanning part of `get_app_info` computes on a
well-formed parsed response: the first matching layout-49 item, finalized
with the source tag and the last scanned developer name — or the
`ValueError` carrying the requested id. -/
theorem extractFromData_eq (app_id : String) (data : JVal)
    (hwf : wfLayoutData data = true) :
    extractFromData app_id data =
      match firstMatch app_id (elementsOf data) with
      | some item =>
        .ok (finalizeRecord item (lastDeveloperText (elementsOf data)))
      | none => .error (.valueError (notFoundMsg app_id)) := by
  obtain ⟨fs, rfl⟩ : ∃ fs, data = .obj fs := by
    cases data <;> simp_all [wfLayoutData]
  unfold extractFromData
  cases hld : lookupField fs "layoutData" with
  | none =>
    have he : elementsOf (JVal.obj fs) = [] := by simp [elementsOf, jGet, hld]
    rw [show pyGetD (JVal.obj fs) "layoutData" (.arr []) = .ok (.arr []) by
        simp [pyGetD, hld],
      ok_bind, show pyIter (JVal.arr []) = .ok [] from rfl, ok_bind,
      show scanElements app_id ⟨none, .null⟩ [] = .ok ⟨none, .null⟩ from rfl,
      ok_bind, he]
    rfl
  | some ld =>
    have hex : ∃ es, ld = .arr es ∧ es.all wfElement = true := by
      cases ld <;> simp_all [wfLayoutData]
    obtain ⟨es, rfl, hes⟩ := hex
    have he : elementsOf (JVal.obj fs) = es := by simp [elementsOf, jGet, hld]
    rw [show pyGetD (JVal.obj fs) "layoutData" (.arr []) = .ok (.arr es) by
        simp [pyGetD, hld],
      ok_bind, show pyIter (JVal.arr es) = .ok es from rfl, ok_bind,
      scanElements_eq app_id es ⟨none, .null⟩ hes trivial, ok_bind, he]
    cases hfm : firstMatch app_id es with
    | none => simp
    | some item =>
      have hm := firstMatch_matches app_id es item hfm
      have htr := itemMatches_truthy app_id item hm
      have hio := itemMatches_isObj app_id item hm
      obtain ⟨ifs, rfl⟩ : ∃ ifs, item = .obj ifs := by
        cases item <;> simp_all [isObj]
      simp only [htr, if_true,
        show jvalSet (JVal.obj ifs) "integration_type" (.str "appgallery")
            = .ok (.obj (dictSet ifs "integration_type" (.str "appgallery")))
          from rfl,
        ok_bind]
      by_cases hd : pyTruthy (devFold .null (devEntries es)) = true
      · simp [hd, finalizeRecord, lastDeveloperText, setField, jvalSet,
          pure_except]
      · simp only [Bool.not_eq_true] at hd
        simp [hd, finalizeRecord, lastDeveloperText, setField, pure_except]

/-! ## Top-level helpers -/

/-- The interface-code call failed: unreachable, non-success status, or
unparseable body. -/
def interfaceFailed (o : HttpOutcome) : Bool :=
  match o with
  | .unreachable => true
  | .status code body => isErrorStatus code || body.isNone

/-- The interface-code call failed before its body was even read:
unreachable or non-success status (the two causes named by the spec's
`UpstreamError`). -/
def interfaceDown (o : HttpOutcome) : Bool :=
  match o with
  | .unreachable => true
  | .status code _ => isErrorStatus code

theorem interfaceFailed_of_down (o : HttpOutcome)
    (h : interfaceDown o = true) : interfaceFailed o = true := by
  cases o with
  | unreachable => rfl
  | status code body => simp_all [interfaceDown, interfaceFailed]

theorem get_interface_code_of_failed (o : HttpOutcome)
    (h : interfaceFailed o = true) :
    get_interface_code o =
      .error (.runtimeError "Cannot get interface code.") := by
  cases o with
  | unreachable => rfl
  | status code body =>
    simp only [interfaceFailed, Bool.or_eq_true] at h
    unfold get_interface_code
    rcases h with h | h
    · simp [h]
    · cases body with
      | none => cases hs : isErrorStatus code <;> simp [hs]
      | some v => simp at h

theorem get_app_info_header_abort (app_id : String) (env : Env)
    (h : interfaceFailed env.interfaceCall = true) :
    get_app_info app_id env =
      (.error (.runtimeError "Cannot get interface code."), ⟨none⟩) := by
  unfold get_app_info build_headers
  rw [get_interface_code_of_failed env.interfaceCall h]
  rfl

theorem get_app_info_detail (app_id : String) (ifc : HttpOutcome)
    (ts : String) (c : JVal) (data : JVal)
    (hifc : get_interface_code ifc = .ok c) :
    get_app_info app_id (Env.mk ifc ts (.status 200 (some data))) =
      (extractFromData app_id data,
       ⟨some ⟨appInfoUrl app_id, pyStr c ++ "_" ++ removeDots ts⟩⟩) := by
  simp only [get_app_info, build_headers, hifc, ok_bind]
  rfl

/-- Removing the dots from `intPart ++ "." ++ fracPart` glues the two
dot-free parts together. -/
theorem removeDots_split (a b : String) (ha : ∀ ch ∈ a.data, ch ≠ '.')
    (hb : ∀ ch ∈ b.data, ch ≠ '.') :
    removeDots (a ++ "." ++ b) = a ++ b := by
  unfold removeDots
  have h1 : (a ++ "." ++ b).data = a.data ++ '.' :: b.data := by
    simp [String.data_append]
  rw [h1]
  have hfa : a.data.filter (fun c => decide (c ≠ '.')) = a.data :=
    List.filter_eq_self.mpr (fun c hc => by simpa using ha c hc)
  have hfb : b.data.filter (fun c => decide (c ≠ '.')) = b.data :=
    List.filter_eq_self.mpr (fun c hc => by simpa using hb c hc)
  rw [List.filter_append, List.filter_cons, if_neg (by decide), hfa, hfb]
  cases a; cases b; rfl

/-! ## Lookup behaviour of dict assignment -/

theorem lookupField_mapSet_self (fs : List (String × JVal)) (key : String)
    (v : JVal) (h : fs.any (fun p => p.1 = key) = true) :
    lookupField (fs.map (fun p => if p.1 = key then (key, v) else p)) key
      = some v := by
  induction fs with
  | nil => simp at h
  | cons p fs ih =>
    obtain ⟨k0, v0⟩ := p
    simp only [List.map_cons]
    by_cases hk : k0 = key
    · subst hk
      rw [if_pos rfl]
      simp [lookupField]
    · rw [if_neg hk]
      simp only [lookupField]
      rw [if_neg hk]
      apply ih
      simp only [List.any_cons, Bool.or_eq_true, decide_eq_true_eq] at h
      rcases h with h | h
      · exact absurd h hk
      · simpa using h

theorem lookupField_mapSet_other (fs : List (String × JVal)) (key : String)
    (v : JVal) (k : String) (h : k ≠ key) :
    lookupField (fs.map (fun p => if p.1 = key then (key, v) else p)) k
      = lookupField fs k := by
  have hne : ¬(key = k) := fun hh => h hh.symm
  induction fs with
  | nil => rfl
  | cons p fs ih =>
    obtain ⟨k0, v0⟩ := p
    simp only [List.map_cons]
    by_cases hk : k0 = key
    · subst hk
      rw [if_pos rfl]
      simp only [lookupField]
      rw [if_neg hne, if_neg hne]
      exact ih
    · rw [if_neg hk]
      simp only [lookupField]
      by_cases hk0 : k0 = k
      · rw [if_pos hk0, if_pos hk0]
      · rw [if_neg hk0, if_neg hk0]
        exact ih

theorem lookupField_append (xs ys : List (String × JVal)) (k : String) :
    lookupField (xs ++ ys) k =
      match lookupField xs k with
      | some v => some v
      | none => lookupField ys k := by
  induction xs with
  | nil => simp [lookupField]
  | cons p xs ih =>
    obtain ⟨k0, v0⟩ := p
    by_cases hk : k0 = k
    · simp [lookupField, hk]
    · simp [lookupField, hk, ih]

theorem lookupField_dictSet_self (fs : List (String × JVal)) (key : String)
    (v : JVal) : lookupField (dictSet fs key v) key = some v := by
  unfold dictSet
  cases hany : fs.any (fun p => p.1 = key) with
  | true => simp [lookupField_mapSet_self fs key v hany]
  | false =>
    rw [if_neg (by simp [hany]), lookupField_append,
      lookupField_of_not_any fs key hany]
    simp [lookupField]

theorem lookupField_dictSet_other (fs : List (String × JVal)) (key : String)
    (v : JVal) (k : String) (h : k ≠ key) :
    lookupField (dictSet fs key v) k = lookupField fs k := by
  unfold dictSet
  cases hany : fs.any (fun p => p.1 = key) with
  | true => simp [lookupField_mapSet_other fs key v k h]
  | false =>
    rw [if_neg (by simp [hany]), lookupField_append]
    cases hl : lookupField fs k with
    | some w => rfl
    | none => simp [lookupField, Ne.symm h]

theorem jLookup_finalize_tag (item d : JVal) (hobj : isObj item = true) :
    jLookup (finalizeRecord item d) "integration_type"
      = some (.str "appgallery") := by
  obtain ⟨fs, rfl⟩ : ∃ fs, item = .obj fs := by
    cases item <;> simp_all [isObj]
  unfold finalizeRecord setField
  by_cases hd : pyTruthy d = true
  · simp only [hd, if_true]
    simp [jLookup,
      lookupField_dictSet_other _ "developer" _ "integration_type"
        (by decide),
      lookupField_dictSet_self]
  · simp only [Bool.not_eq_true] at hd
    simp [hd, jLookup, lookupField_dictSet_self]

theorem jLookup_finalize_frame (item d : JVal) (hobj : isObj item = true)
    (k : String) (h1 : k ≠ "integration_type") (h2 : k ≠ "developer") :
    jLookup (finalizeRecord item d) k = jLookup item k := by
  obtain ⟨fs, rfl⟩ : ∃ fs, item = .obj fs := by
    cases item <;> simp_all [isObj]
  unfold finalizeRecord setField
  by_cases hd : pyTruthy d = true
  · simp only [hd, if_true]
    simp [jLookup, lookupField_dictSet_other _ "developer" _ k h2,
      lookupField_dictSet_other _ "integration_type" _ k h1]
  · simp only [Bool.not_eq_true] at hd
    simp [hd, jLookup, lookupField_dictSet_other _ "integration_type" _ k h1]

theorem jLookup_finalize_dev_pos (item d : JVal) (hobj : isObj item = true)
    (hd : pyTruthy d = true) :
    jLookup (finalizeRecord item d) "developer" = some d := by
  obtain ⟨fs, rfl⟩ : ∃ fs, item = .obj fs := by
    cases item <;> simp_all [isObj]
  unfold finalizeRecord setField
  simp [hd, jLookup, lookupField_dictSet_self]

theorem jLookup_finalize_dev_neg (item d : JVal) (hobj : isObj item = true)
    (hd : pyTruthy d = false) :
    jLookup (finalizeRecord item d) "developer" = jLookup item "developer" := by
  obtain ⟨fs, rfl⟩ : ∃ fs, item = .obj fs := by
    cases item <;> simp_all [isObj]
  unfold finalizeRecord setField
  simp [hd, jLookup,
    lookupField_dictSet_other _ "integration_type" _ "developer" (by decide)]

/-! ## Locating the match -/

theorem firstMatch_append_no49 (app_id : String) (xs ys : List JVal)
    (h : ∀ x ∈ xs, isLayout 49 x = false) :
    firstMatch app_id (xs ++ ys) = firstMatch app_id ys := by
  induction xs with
  | nil => rfl
  | cons x xs ih =>
    have hx := h x (by simp)
    simp only [List.cons_append, firstMatch, firstMatchInElement, hx,
      Bool.false_eq_true, if_false]
    exact ih (fun x hx => h x (by simp [hx]))

theorem firstMatch_none_of_no_match (app_id : String) (es : List JVal)
    (h : ∀ e ∈ es, isLayout 49 e = true →
      ∀ item ∈ itemsOf e, itemMatches app_id item = false) :
    firstMatch app_id es = none := by
  induction es with
  | nil => rfl
  | cons e es ih =>
    have he : firstMatchInElement app_id e = none := by
      unfold firstMatchInElement
      by_cases h49 : isLayout 49 e = true
      · simp only [h49, if_true]
        exact List.find?_eq_none.mpr (fun item hi => by
          simp [h e (by simp) h49 item hi])
      · simp only [Bool.not_eq_true] at h49
        simp [h49]
    simp only [firstMatch, he]
    exact ih (fun e he h49 => h e (by simp [he]) h49)

/-! ## Module surface of the repository

`app.py` line 2 runs `from appgallery_service import fetch_single_app`;
these lists record the names that import resolves against. -/

/-- Top-level names bound in `appgallery_service.py`: imported modules and
symbols, module constants, the logger objects, and the function
definitions. -/
def appgallery_service_names : List String :=
  ["argparse", "logging", "os", "time", "json", "requests", "csv",
   "ThreadPoolExecutor", "as_completed", "logger", "failure_log_handler",
   "INTERFACE_URL", "APP_INFO_URL_TEMPLATE", "APP_DETAIL_URL_TEMPLATE",
   "APK_DOWNLOAD_URL_TEMPLATE", "SUMMARY_DIR", "get_interface_code",
   "build_headers", "get_app_info", "print_info", "write_summary", "cli"]

/-- The names `app.py` imports from `appgallery_service`. -/
def app_py_imports_from_service : List String := ["fetch_single_app"]

/-! ## Claims -/

/-- **C3** (counterexample): the claim says unreachable/non-success
failures raise `UpstreamError` while an unparseable code body raises a
distinct `ProtocolError`, distinguishable by the caller.  In the code all
three failure modes of `get_interface_code` collapse into the identical
`RuntimeError("Cannot get interface code.")`, so the unparseable-body
failure is not distinguishable from the unreachable-endpoint failure. -/
theorem C3_counterexample :
    build_headers .unreachable "1.0" = build_headers (.status 200 none) "1.0"
    ∧ build_headers (.status 404 (some (.str "c"))) "1.0"
        = build_headers (.status 200 none) "1.0"
    ∧ build_headers (.status 200 none) "1.0"
        = .error (.runtimeError "Cannot get interface code.") :=
  ⟨rfl, rfl, rfl⟩

/-- **C3** (amended): whenever the authorization-code step fails — the
endpoint unreachable, a non-success status, or an unparseable body —
`build_headers` fails with the single undifferentiated
`RuntimeError("Cannot get interface code.")`; the failure kinds are not
distinguishable by the caller. -/
theorem C3_single_failure_kind (o : HttpOutcome) (ts : String)
    (h : interfaceFailed o = true) :
    build_headers o ts =
      .error (.runtimeError "Cannot get interface code.") := by
  unfold build_headers
  rw [get_interface_code_of_failed o h]
  rfl

theorem C3_single_failure_kind_witness :
    build_headers (.status 200 none) "1.0" =
      .error (.runtimeError "Cannot get interface code.") :=
  C3_single_failure_kind (.status 200 none) "1.0" rfl

/-- **C4** (counterexample): the claim says the header is the code joined
by `_` to the whole-seconds timestamp digits (fractional seconds removed).
For code `"abc"` at clock string `"1.5"` the code produces `"abc_15"` —
the fractional digit is kept, not removed — whereas the claim mandates
`"abc_1"`. -/
theorem C4_counterexample :
    build_headers (.status 200 (some (.str "abc"))) "1.5" = .ok "abc_15"
    ∧ "abc_15" ≠ "abc_" ++ "1" := by
  refine ⟨rfl, by decide⟩

/-- **C4** (amended): the header equals the fetched code joined by an
underscore to the clock string with its decimal point removed — the
fractional digits are retained and concatenated after the whole-seconds
digits, not dropped. -/
theorem C4_header_keeps_fraction_digits (o : HttpOutcome) (c : JVal)
    (intPart fracPart : String)
    (hok : get_interface_code o = .ok c)
    (hi : ∀ ch ∈ intPart.data, ch ≠ '.')
    (hf : ∀ ch ∈ fracPart.data, ch ≠ '.') :
    build_headers o (intPart ++ "." ++ fracPart) =
      .ok (pyStr c ++ "_" ++ (intPart ++ fracPart)) := by
  unfold build_headers
  rw [hok, ok_bind, removeDots_split intPart fracPart hi hf]
  rfl

theorem C4_header_keeps_fraction_digits_witness :
    build_headers (.status 200 (some (.str "tok"))) ("1700" ++ "." ++ "25")
      = .ok (pyStr (.str "tok") ++ "_" ++ ("1700" ++ "25")) :=
  C4_header_keeps_fraction_digits (.status 200 (some (.str "tok")))
    (.str "tok") "1700" "25" rfl (by decide) (by decide)

/-- **C5**: whenever the authorization-code call fails (endpoint
unreachable or non-success HTTP status), the whole lookup fails with the
header-step error and the detail-lookup GET request is never issued
(the trace records no detail request). -/
theorem C5_header_failure_skips_detail (app_id : String) (env : Env)
    (h : interfaceDown env.interfaceCall = true) :
    get_app_info app_id env =
      (.error (.runtimeError "Cannot get interface code."), ⟨none⟩) :=
  get_app_info_header_abort app_id env
    (interfaceFailed_of_down env.interfaceCall h)

theorem C5_header_failure_skips_detail_witness :
    get_app_info "a5" (Env.mk (.status 503 (some .null)) "1.0"
        (.status 200 (some .null))) =
      (.error (.runtimeError "Cannot get interface code."), ⟨none⟩) :=
  C5_header_failure_skips_detail "a5"
    (Env.mk (.status 503 (some .null)) "1.0" (.status 200 (some .null))) rfl

/-- **C8**: a parsed detail response that lacks the `layoutData` field is
not an error by itself: the scan treats it as the empty sequence and the
lookup ends in the `ValueError` (`NotFoundError`) carrying the requested
id, not in a field-access error. -/
theorem C8_missing_layoutData_not_found (app_id : String)
    (ifc : HttpOutcome) (ts : String) (c : JVal)
    (fs : List (String × JVal))
    (hifc : get_interface_code ifc = .ok c)
    (hmiss : lookupField fs "layoutData" = none) :
    (get_app_info app_id (Env.mk ifc ts (.status 200 (some (.obj fs))))).1 =
      .error (.valueError (notFoundMsg app_id)) := by
  have hwf : wfLayoutData (.obj fs) = true := by
    simp [wfLayoutData, hmiss]
  rw [get_app_info_detail app_id ifc ts c (.obj fs) hifc]
  show extractFromData app_id (.obj fs) = _
  rw [extractFromData_eq app_id (.obj fs) hwf]
  have he : elementsOf (JVal.obj fs) = [] := by simp [elementsOf, jGet, hmiss]
  rw [he]
  rfl

theorem C8_missing_layoutData_not_found_witness :
    (get_app_info "a8" (Env.mk (.status 200 (some (.str "tok"))) "1.0"
        (.status 200 (some (.obj [("rtnCode", .num 0)]))))).1 =
      .error (.valueError (notFoundMsg "a8")) :=
  C8_missing_layoutData_not_found "a8" (.status 200 (some (.str "tok")))
    "1.0" (.str "tok") [("rtnCode", .num 0)] rfl rfl

/-- **C9** (code bug): the HTTP endpoint `app.py` imports
`fetch_single_app` from the service module, but `appgallery_service.py`
binds no such name — the import fails, so no externally callable
`fetchSingleApp` contract exists in the code. -/
theorem C9_fetch_single_app_not_defined :
    "fetch_single_app" ∈ app_py_imports_from_service ∧
    "fetch_single_app" ∉ appgallery_service_names := by decide

/-- **C1**: for a well-formed parsed detail response whose `layoutData`
holds exactly one layout-49 element, and that element holds a data item
whose `appid` equals the requested id, `get_app_info` succeeds and
returns that item's fields finalized with `integration_type` set to the
constant source tag `"appgallery"` (and the developer name attached when
one was scanned from a layout-59 entry). -/
theorem C1_unique_match_extracted (app_id : String) (ifc : HttpOutcome)
    (ts : String) (c data item e : JVal) (xs ys : List JVal)
    (hifc : get_interface_code ifc = .ok c)
    (hwf : wfLayoutData data = true)
    (hsplit : elementsOf data = xs ++ e :: ys)
    (honly : ∀ x ∈ xs ++ ys, isLayout 49 x = false)
    (h49 : isLayout 49 e = true)
    (hfind : (itemsOf e).find? (itemMatches app_id) = some item) :
    (get_app_info app_id (Env.mk ifc ts (.status 200 (some data)))).1 =
      .ok (finalizeRecord item (lastDeveloperText (elementsOf data)))
    ∧ jLookup (finalizeRecord item (lastDeveloperText (elementsOf data)))
        "integration_type" = some (.str "appgallery") := by
  have hfm : firstMatch app_id (elementsOf data) = some item := by
    rw [hsplit, firstMatch_append_no49 app_id xs (e :: ys)
      (fun x hx => honly x (List.mem_append_left _ hx))]
    simp [firstMatch, firstMatchInElement, h49, hfind]
  have hobj := itemMatches_isObj app_id item
    (firstMatch_matches app_id (elementsOf data) item hfm)
  refine ⟨?_, jLookup_finalize_tag item _ hobj⟩
  rw [get_app_info_detail app_id ifc ts c data hifc]
  show extractFromData app_id data = _
  rw [extractFromData_eq app_id data hwf, hfm]

theorem C1_unique_match_extracted_witness :
    (get_app_info "a1" (Env.mk (.status 200 (some (.str "tok"))) "1.2"
        (.status 200 (some (.obj [("layoutData", .arr
          [.obj [("layoutId", .num 49), ("dataList", .arr
            [.obj [("appid", .str "a1"), ("name", .str "N")]])]])]))))).1 =
      .ok (finalizeRecord (.obj [("appid", .str "a1"), ("name", .str "N")])
        (lastDeveloperText (elementsOf (.obj [("layoutData", .arr
          [.obj [("layoutId", .num 49), ("dataList", .arr
            [.obj [("appid", .str "a1"), ("name", .str "N")]])]])]))))
    ∧ jLookup (finalizeRecord (.obj [("appid", .str "a1"),
          ("name", .str "N")])
        (lastDeveloperText (elementsOf (.obj [("layoutData", .arr
          [.obj [("layoutId", .num 49), ("dataList", .arr
            [.obj [("appid", .str "a1"), ("name", .str "N")]])]])]))))
        "integration_type" = some (.str "appgallery") :=
  C1_unique_match_extracted "a1" (.status 200 (some (.str "tok"))) "1.2"
    (.str "tok")
    (.obj [("layoutData", .arr
      [.obj [("layoutId", .num 49), ("dataList", .arr
        [.obj [("appid", .str "a1"), ("name", .str "N")]])]])])
    (.obj [("appid", .str "a1"), ("name", .str "N")])
    (.obj [("layoutId", .num 49), ("dataList", .arr
      [.obj [("appid", .str "a1"), ("name", .str "N")]])])
    [] [] rfl rfl rfl (by simp) rfl rfl

/-- **C2**: for a well-formed parsed detail response in which no data item
of any layout-49 element has `appid` equal to the requested id, the lookup
fails with the `ValueError` (`NotFoundError`) whose message carries that
id, and no record is returned. -/
theorem C2_no_match_not_found (app_id : String) (ifc : HttpOutcome)
    (ts : String) (c data : JVal)
    (hifc : get_interface_code ifc = .ok c)
    (hwf : wfLayoutData data = true)
    (hnomatch : ∀ e ∈ elementsOf data, isLayout 49 e = true →
      ∀ item ∈ itemsOf e, itemMatches app_id item = false) :
    (get_app_info app_id (Env.mk ifc ts (.status 200 (some data)))).1 =
      .error (.valueError (notFoundMsg app_id))
    ∧ notFoundMsg app_id
        = "App ID " ++ app_id ++ " not found in response." := by
  refine ⟨?_, rfl⟩
  rw [get_app_info_detail app_id ifc ts c data hifc]
  show extractFromData app_id data = _
  rw [extractFromData_eq app_id data hwf,
    firstMatch_none_of_no_match app_id (elementsOf data) hnomatch]

theorem C2_no_match_not_found_witness :
    (get_app_info "a2" (Env.mk (.status 200 (some (.str "tok"))) "1.0"
        (.status 200 (some (.obj [("layoutData", .arr
          [.obj [("layoutId", .num 49), ("dataList", .arr
            [.obj [("appid", .str "zz")]])]])]))))).1 =
      .error (.valueError (notFoundMsg "a2"))
    ∧ notFoundMsg "a2" = "App ID " ++ "a2" ++ " not found in response." :=
  C2_no_match_not_found "a2" (.status 200 (some (.str "tok"))) "1.0"
    (.str "tok")
    (.obj [("layoutData", .arr
      [.obj [("layoutId", .num 49), ("dataList", .arr
        [.obj [("appid", .str "zz")]])]])])
    rfl rfl (by decide)

/-- **C6**: when several layout-59 `"Developer"` entries occur, the
developer attached to the returned record is the `text` of the **last**
such entry in scan order — the earlier entries (arbitrary here) are
overwritten; the developer scan does not short-circuit on the first hit. -/
theorem C6_last_developer_entry_wins (app_id : String) (ifc : HttpOutcome)
    (ts : String) (c data item d : JVal) (ds : List JVal) (t : String)
    (hifc : get_interface_code ifc = .ok c)
    (hwf : wfLayoutData data = true)
    (hfm : firstMatch app_id (elementsOf data) = some item)
    (hdevs : (devEntries (elementsOf data)).filter isDevEntry = ds ++ [d])
    (_hmulti : ds ≠ [])
    (ht : jGet d "text" = .str t) (hne : t ≠ "") :
    (get_app_info app_id (Env.mk ifc ts (.status 200 (some data)))).1 =
      .ok (finalizeRecord item (.str t))
    ∧ jLookup (finalizeRecord item (.str t)) "developer"
        = some (.str t) := by
  have hlast : lastDeveloperText (elementsOf data) = .str t := by
    unfold lastDeveloperText
    rw [devFold_eq_getLast, hdevs, List.getLast?_concat]
    simpa using ht
  have hobj := itemMatches_isObj app_id item
    (firstMatch_matches app_id (elementsOf data) item hfm)
  have htr : pyTruthy (.str t) = true := by
    have hemp : t.isEmpty = false := by
      rw [Bool.eq_false_iff]
      intro hh
      exact hne ((String.isEmpty_iff t).mp hh)
    simp [pyTruthy, hemp]
  constructor
  · rw [get_app_info_detail app_id ifc ts c data hifc]
    show extractFromData app_id data = _
    rw [extractFromData_eq app_id data hwf, hfm, hlast]
  · exact jLookup_finalize_dev_pos item (.str t) hobj htr

theorem C6_last_developer_entry_wins_witness :
    (get_app_info "a6" (Env.mk (.status 200 (some (.str "tok"))) "1.0"
        (.status 200 (some (.obj [("layoutData", .arr
          [.obj [("layoutId", .num 49), ("dataList", .arr
            [.obj [("appid", .str "a6")]])],
           .obj [("layoutId", .num 59), ("dataList", .arr
            [.obj [("list", .arr
              [.obj [("name", .str "Developer"),
                     ("text", .str "First Corp")],
               .obj [("name", .str "Developer"),
                     ("text", .str "Acme Inc")]])]])]])]))))).1 =
      .ok (finalizeRecord (.obj [("appid", .str "a6")]) (.str "Acme Inc"))
    ∧ jLookup (finalizeRecord (.obj [("appid", .str "a6")])
        (.str "Acme Inc")) "developer" = some (.str "Acme Inc") :=
  C6_last_developer_entry_wins "a6" (.status 200 (some (.str "tok"))) "1.0"
    (.str "tok")
    (.obj [("layoutData", .arr
      [.obj [("layoutId", .num 49), ("dataList", .arr
        [.obj [("appid", .str "a6")]])],
       .obj [("layoutId", .num 59), ("dataList", .arr
        [.obj [("list", .arr
          [.obj [("name", .str "Developer"), ("text", .str "First Corp")],
           .obj [("name", .str "Developer"),
                 ("text", .str "Acme Inc")]])]])]])])
    (.obj [("appid", .str "a6")])
    (.obj [("name", .str "Developer"), ("text", .str "Acme Inc")])
    [.obj [("name", .str "Developer"), ("text", .str "First Corp")]]
    "Acme Inc" rfl rfl rfl rfl (by simp) rfl (by decide)

/-- A layout-49 element holding the single data item with fields `ifs`. -/
def appElement (ifs : List (String × JVal)) : JVal :=
  .obj [("layoutId", .num 49), ("dataList", .arr [.obj ifs])]

/-- A layout-59 element holding one nested-list developer entry
`{name: "Developer", text: "Acme Inc"}`. -/
def acmeElement : JVal :=
  .obj [("layoutId", .num 59), ("dataList", .arr
    [.obj [("list", .arr [.obj [("name", .str "Developer"),
                                ("text", .str "Acme Inc")]])]])]

/-- A detail response carrying the given layout elements. -/
def detailResponse (es : List JVal) : JVal :=
  .obj [("layoutData", .arr es)]

/-- **C7**: for a response holding a matching layout-49 item and a
layout-59 element with nested entry `{name: "Developer", text: "Acme
Inc"}`, the extracted record carries `developer = "Acme Inc"` whether the
layout-59 element comes before or after the layout-49 element — the two
orders produce identical results. -/
theorem C7_developer_position_invariant (app_id : String)
    (ifc : HttpOutcome) (ts : String) (c : JVal)
    (ifs : List (String × JVal))
    (hifc : get_interface_code ifc = .ok c)
    (hwfi : wfItem (.obj ifs) = true)
    (hmatch : itemMatches app_id (.obj ifs) = true) :
    (get_app_info app_id (Env.mk ifc ts (.status 200
        (some (detailResponse [appElement ifs, acmeElement]))))).1 =
      (get_app_info app_id (Env.mk ifc ts (.status 200
        (some (detailResponse [acmeElement, appElement ifs]))))).1
    ∧ (get_app_info app_id (Env.mk ifc ts (.status 200
        (some (detailResponse [appElement ifs, acmeElement]))))).1 =
      .ok (finalizeRecord (.obj ifs) (.str "Acme Inc"))
    ∧ jLookup (finalizeRecord (.obj ifs) (.str "Acme Inc")) "developer"
        = some (.str "Acme Inc") := by
  have hwfe : wfElement (appElement ifs) = true := by
    simp [wfElement, appElement, lookupField, hwfi]
  have hacme : wfElement acmeElement = true := by decide
  have hwf1 : wfLayoutData (detailResponse [appElement ifs, acmeElement])
      = true := by
    simp [wfLayoutData, detailResponse, lookupField, hwfe, hacme]
  have hwf2 : wfLayoutData (detailResponse [acmeElement, appElement ifs])
      = true := by
    simp [wfLayoutData, detailResponse, lookupField, hwfe, hacme]
  have helems1 : elementsOf (detailResponse [appElement ifs, acmeElement])
      = [appElement ifs, acmeElement] := by
    simp [elementsOf, detailResponse, jGet, lookupField]
  have helems2 : elementsOf (detailResponse [acmeElement, appElement ifs])
      = [acmeElement, appElement ifs] := by
    simp [elementsOf, detailResponse, jGet, lookupField]
  have hone : firstMatchInElement app_id (appElement ifs)
      = some (.obj ifs) := by
    simp [firstMatchInElement, isLayout, appElement, jGet, lookupField,
      itemsOf, pyEqNum, List.find?_cons_of_pos _ hmatch]
  have hnil : firstMatchInElement app_id acmeElement = none := by
    simp [firstMatchInElement, isLayout, acmeElement, jGet, lookupField,
      pyEqNum]
  have hfm1 : firstMatch app_id [appElement ifs, acmeElement]
      = some (.obj ifs) := by
    simp [firstMatch, hone]
  have hfm2 : firstMatch app_id [acmeElement, appElement ifs]
      = some (.obj ifs) := by
    simp [firstMatch, hone, hnil]
  have hdev1 : lastDeveloperText [appElement ifs, acmeElement]
      = .str "Acme Inc" := rfl
  have hdev2 : lastDeveloperText [acmeElement, appElement ifs]
      = .str "Acme Inc" := rfl
  have h1 : (get_app_info app_id (Env.mk ifc ts (.status 200
      (some (detailResponse [appElement ifs, acmeElement]))))).1 =
      .ok (finalizeRecord (.obj ifs) (.str "Acme Inc")) := by
    rw [get_app_info_detail app_id ifc ts c _ hifc]
    show extractFromData app_id _ = _
    rw [extractFromData_eq _ _ hwf1, helems1, hfm1, hdev1]
  have h2 : (get_app_info app_id (Env.mk ifc ts (.status 200
      (some (detailResponse [acmeElement, appElement ifs]))))).1 =
      .ok (finalizeRecord (.obj ifs) (.str "Acme Inc")) := by
    rw [get_app_info_detail app_id ifc ts c _ hifc]
    show extractFromData app_id _ = _
    rw [extractFromData_eq _ _ hwf2, helems2, hfm2, hdev2]
  exact ⟨h1.trans h2.symm, h1,
    jLookup_finalize_dev_pos (.obj ifs) (.str "Acme Inc") rfl (by decide)⟩

theorem C7_developer_position_invariant_witness :
    (get_app_info "a7" (Env.mk (.status 200 (some (.str "tok"))) "1.0"
        (.status 200 (some (detailResponse
          [appElement [("appid", .str "a7")], acmeElement]))))).1 =
      (get_app_info "a7" (Env.mk (.status 200 (some (.str "tok"))) "1.0"
        (.status 200 (some (detailResponse
          [acmeElement, appElement [("appid", .str "a7")]]))))).1
    ∧ (get_app_info "a7" (Env.mk (.status 200 (some (.str "tok"))) "1.0"
        (.status 200 (some (detailResponse
          [appElement [("appid", .str "a7")], acmeElement]))))).1 =
      .ok (finalizeRecord (.obj [("appid", .str "a7")]) (.str "Acme Inc"))
    ∧ jLookup (finalizeRecord (.obj [("appid", .str "a7")])
        (.str "Acme Inc")) "developer" = some (.str "Acme Inc") :=
  C7_developer_position_invariant "a7" (.status 200 (some (.str "tok")))
    "1.0" (.str "tok") [("appid", .str "a7")] rfl rfl (by decide)

/-- **C10**: on a successful lookup the returned record is the accepted
layout-49 item with every other field untouched: only `integration_type`
is added (always, with the constant tag) and `developer` (only when the
scanned developer name is truthy, i.e. found and non-empty); no other
field is removed or altered. -/
theorem C10_only_tag_and_developer_added (app_id : String)
    (ifc : HttpOutcome) (ts : String) (c data item : JVal)
    (hifc : get_interface_code ifc = .ok c)
    (hwf : wfLayoutData data = true)
    (hfm : firstMatch app_id (elementsOf data) = some item) :
    ∃ r, (get_app_info app_id
        (Env.mk ifc ts (.status 200 (some data)))).1 = .ok r
      ∧ (∀ k, k ≠ "integration_type" → k ≠ "developer" →
          jLookup r k = jLookup item k)
      ∧ jLookup r "integration_type" = some (.str "appgallery")
      ∧ ((pyTruthy (lastDeveloperText (elementsOf data)) = true ∧
            jLookup r "developer"
              = some (lastDeveloperText (elementsOf data)))
         ∨ (pyTruthy (lastDeveloperText (elementsOf data)) = false ∧
            jLookup r "developer" = jLookup item "developer")) := by
  have hobj := itemMatches_isObj app_id item
    (firstMatch_matches app_id (elementsOf data) item hfm)
  refine ⟨finalizeRecord item (lastDeveloperText (elementsOf data)),
    ?_, ?_, ?_, ?_⟩
  · rw [get_app_info_detail app_id ifc ts c data hifc]
    show extractFromData app_id data = _
    rw [extractFromData_eq app_id data hwf, hfm]
  · exact fun k h1 h2 => jLookup_finalize_frame item _ hobj k h1 h2
  · exact jLookup_finalize_tag item _ hobj
  · cases hd : pyTruthy (lastDeveloperText (elementsOf data)) with
    | true => exact Or.inl ⟨rfl, jLookup_finalize_dev_pos item _ hobj hd⟩
    | false => exact Or.inr ⟨rfl, jLookup_finalize_dev_neg item _ hobj hd⟩

theorem C10_only_tag_and_developer_added_witness :
    ∃ r, (get_app_info "a0" (Env.mk (.status 200 (some (.str "tok"))) "1.0"
        (.status 200 (some (.obj [("layoutData", .arr
          [.obj [("layoutId", .num 49), ("dataList", .arr
            [.obj [("appid", .str "a0"),
                   ("size", .num 123)]])]])]))))).1 = .ok r
      ∧ (∀ k, k ≠ "integration_type" → k ≠ "developer" →
          jLookup r k
            = jLookup (.obj [("appid", .str "a0"), ("size", .num 123)]) k)
      ∧ jLookup r "integration_type" = some (.str "appgallery")
      ∧ ((pyTruthy (lastDeveloperText (elementsOf (.obj [("layoutData",
              .arr [.obj [("layoutId", .num 49), ("dataList", .arr
                [.obj [("appid", .str "a0"),
                       ("size", .num 123)]])]])]))) = true ∧
            jLookup r "developer"
              = some (lastDeveloperText (elementsOf (.obj [("layoutData",
                  .arr [.obj [("layoutId", .num 49), ("dataList", .arr
                    [.obj [("appid", .str "a0"),
                           ("size", .num 123)]])]])]))))
         ∨ (pyTruthy (lastDeveloperText (elementsOf (.obj [("layoutData",
              .arr [.obj [("layoutId", .num 49), ("dataList", .arr
                [.obj [("appid", .str "a0"),
                       ("size", .num 123)]])]])]))) = false ∧
            jLookup r "developer"
              = jLookup (.obj [("appid", .str "a0"),
                  ("size", .num 123)]) "developer")) :=
  C10_only_tag_and_developer_added "a0" (.status 200 (some (.str "tok")))
    "1.0" (.str "tok")
    (.obj [("layoutData", .arr
      [.obj [("layoutId", .num 49), ("dataList", .arr
        [.obj [("appid", .str "a0"), ("size", .num 123)]])]])])
    (.obj [("appid", .str "a0"), ("size", .num 123)])
    rfl rfl rfl

end AppGallery
